import Mathlib

/-!
Shallow embedding of the lexicon-based sentiment scorer
(`10_sentiment_final.py`): lexicon build/customisation, tokenization and
normalisation, the per-token modifier engine, the sentence-level
multipliers, the aggregator's match rule and the histogram bucketing.
Python floats are modelled as rationals; fallible operations (indexing the
last character of an empty string, division by a zero bucket width) return
an `Option`, with `none` standing for the raised exception.
-/

namespace Sentiment

/-- Membership test for Python's `string.punctuation`
(the ASCII characters from `!` to `~` that are not alphanumeric). -/
def isPunct (c : Char) : Bool :=
  (33 ≤ c.toNat && c.toNat ≤ 47) || (58 ≤ c.toNat && c.toNat ≤ 64) ||
  (91 ≤ c.toNat && c.toNat ≤ 96) || (123 ≤ c.toNat && c.toNat ≤ 126)

/-- Python `str.strip(punctuation)`: remove punctuation characters from
both ends of the string. -/
def stripPunct (s : String) : String :=
  String.mk (((s.toList.dropWhile isPunct).reverse.dropWhile isPunct).reverse)

/-- Python `str.lower()` on one ASCII character. -/
def charToLower (c : Char) : Char :=
  if 65 ≤ c.toNat ∧ c.toNat ≤ 90 then Char.ofNat (c.toNat + 32) else c

/-- Python `str.lower()` on ASCII text. -/
def pyToLower (s : String) : String := String.mk (s.toList.map charToLower)

/-- Python `str.split(sep)` semantics over a character test: split at every
matching character, keeping empty pieces. -/
def splitOnAux (p : Char → Bool) : List Char → List Char → List String
  | acc, [] => [String.mk acc.reverse]
  | acc, c :: cs =>
    if p c then String.mk acc.reverse :: splitOnAux p [] cs
    else splitOnAux p (c :: acc) cs

/-- Split a string at every character satisfying `p`, keeping empty
pieces, as Python `str.split(sep)` does. -/
def splitStr (p : Char → Bool) (s : String) : List String :=
  splitOnAux p [] s.toList

/-- `w.lower().strip(punctuation)`, the normalisation applied both for
stop-word filtering and for lexicon lookup. -/
def normalize (w : String) : String := stripPunct (pyToLower w)

/-- Python `str.isupper()` on ASCII text: at least one letter, and every
letter is uppercase (non-letter characters are ignored). -/
def pyIsUpper (s : String) : Bool :=
  s.toList.any (fun c => c.isAlpha) &&
  s.toList.all (fun c => !c.isAlpha || c.isUpper)

/-- Python `str.split()` with no argument: split on whitespace runs,
discarding empty pieces. -/
def pySplit (s : String) : List String :=
  (splitStr (fun c => c.isWhitespace) s).filter (fun w => w ≠ "")

/-- The apostrophe character. -/
def apos : Char := Char.ofNat 39

/-- `mods = ["really", "incredibly", "very", "super"]`. -/
def mods : List String := ["really", "incredibly", "very", "super"]

/-- `inverters = ["not", "isn't"]`. -/
def inverters : List String := ["not", String.mk ['i', 's', 'n', apos, 't']]

/-- The per-token case multiplier: `mod = 1; if word.isupper(): mod += 0.5`,
computed on the raw surface form before normalisation. -/
def caseMod (word : String) : ℚ := if pyIsUpper word then 1 + 1/2 else 1

/-- The full per-token multiplier of the modifier engine: the case
multiplier, then for a non-first position the predecessor check against
the filtered token list `words`:
`if prev in mods: mod += 0.25 elif prev in inverters: mod *= -1`. -/
def wordMod (words : List String) (pos : Nat) (word : String) : ℚ :=
  let base := caseMod word
  if pos = 0 then base
  else
    let prev := normalize (words.getD (pos - 1) "")
    if prev ∈ mods then base + 1/4
    else if prev ∈ inverters then base * (-1)
    else base

/-- Stop-word filtering: keep the tokens whose normalised form is not in
the stop set; positions are renumbered by the filtering. -/
def filteredWords (stops : List String) (s : String) : List String :=
  (pySplit s).filter (fun w => decide (normalize w ∉ stops))

/-- The scoring loop: over the filtered tokens with their positions, add
`lexicon[word] * mod` for each normalised token present in the lexicon. -/
def scoreTokens (lex : String → Option Int) (words : List String) : ℚ :=
  (words.enum.map (fun p =>
    match lex (normalize p.2) with
    | some k => (k : ℚ) * wordMod words p.1 p.2
    | none => 0)).sum

/-- `analyse(s)`: split, filter stop words, run the scoring loop, then the
sentence-level multipliers. `s[-1]` on the empty string raises `IndexError`
in Python, modelled as `none`. -/
def analyse (stops : List String) (lex : String → Option Int)
    (s : String) : Option ℚ :=
  let words := filteredWords stops s
  let score := scoreTokens lex words
  match s.toList.getLast? with
  | none => none
  | some c =>
    let s1 := if c = '!' then score * (1 + 1/2) else score
    let s2 := if pyIsUpper s then s1 * (1 + 1/4) else s1
    some s2

/-- Weight computed for one lexicon record from the build loop:
`mod = 1; if strength == "negative": mod *= -1;
if polarity_type == "strongsubj": mod *= 2`. (In the source,
`polarity_type` actually holds the subjectivity field's value and
`strength` the polarity field's value.) -/
def recordWeight (polarity_type strength : String) : Int :=
  let mod1 : Int := 1
  let mod2 : Int := if strength = "negative" then mod1 * (-1) else mod1
  if polarity_type = "strongsubj" then mod2 * 2 else mod2

/-- `field.split("=")[1]`: the piece after the first `=`; `none` models the
`IndexError` when the field has no `=`. -/
def fieldValue (field : String) : Option String :=
  (splitStr (fun c => c = '=') field).get? 1

/-- Parsing of one already-split lexicon record:
`polarity_type = pairs[0].split("=")[1]; word = pairs[2].split("=")[1];
strength = pairs[-1].split("=")[1]`, then the weight; `none` models an
`IndexError` on a too-short record or a field without `=`. -/
def parseFields (pairs : List String) : Option (String × Int) :=
  match pairs.get? 0, pairs.get? 2, pairs.getLast? with
  | some f0, some f2, some fl =>
    match fieldValue f0, fieldValue f2, fieldValue fl with
    | some polarity_type, some word, some strength =>
      some (word, recordWeight polarity_type strength)
    | _, _, _ => none
  | _, _, _ => none

/-- Parsing of one lexicon source line: `pairs = line.split(" ")` then
`parseFields`. -/
def parseRecord (line : String) : Option (String × Int) :=
  parseFields (splitStr (fun c => c = ' ') line)

/-- The in-memory lexicon, a map from word to weight. -/
def Lexicon : Type := String → Option Int

/-- `lookup(word)`: pure read. -/
def lookup (lex : Lexicon) (word : String) : Option Int := lex word

/-- `add_word(word, weight)`: insert only when absent; when the word is
already present a warning is printed and the lexicon is left unchanged. -/
def add_word (lex : Lexicon) (word : String) (weight : Int) : Lexicon :=
  match lex word with
  | none => fun x => if x = word then some weight else lex x
  | some _ => lex

/-- `remove_word(word)`: delete when present; when absent a warning is
printed and the lexicon is left unchanged. -/
def remove_word (lex : Lexicon) (word : String) : Lexicon :=
  match lex word with
  | some _ => fun x => if x = word then none else lex x
  | none => lex

/-- The aggregator's match test between a review's sentiment score and its
ground-truth rating, from the corpus loop:
`if (score < 0 and overall < 3) or (score > 0 and overall > 3)` … `elif
score == 0 and overall == 3`. -/
def matchesPair (score overall : ℚ) : Bool :=
  if (score < 0 ∧ overall < 3) ∨ (score > 0 ∧ overall > 3) then true
  else if score = 0 ∧ overall = 3 then true
  else false

/-- Python `max(scores)` for the nonempty lists the program uses. -/
def listMax (l : List ℚ) : ℚ := l.foldl max (l.headD 0)

/-- Python `min(scores)` for the nonempty lists the program uses. -/
def listMin (l : List ℚ) : ℚ := l.foldl min (l.headD 0)

/-- Python `int(q)`: truncation toward zero. -/
def pyInt (q : ℚ) : Int := if 0 ≤ q then ⌊q⌋ else ⌈q⌉

/-- `increments = int(score_range / 20)`, the histogram bucket width. -/
def incrementsOf (scores : List ℚ) : Int :=
  pyInt ((listMax scores - listMin scores) / 20)

/-- `bucket = floor(score/increments)`: the histogram bucket index of one
score; `none` models the `ZeroDivisionError` raised when the width is 0. -/
def bucketIndex (increments : Int) (score : ℚ) : Option Int :=
  if increments = 0 then none else some ⌊score / (increments : ℚ)⌋

end Sentiment
namespace Sentiment

/-- C1: scoring the empty text does not return 0: the reference evaluates
`s[-1]` on the empty string and raises `IndexError` (modelled `none`),
for every stop set and lexicon. -/
theorem analyse_empty_raises (stops : List String) (lex : String → Option Int) :
    analyse stops lex "" = none := rfl

/-- C3 counterexample: the raw token `"GOOD!"` does not consist entirely of
uppercase letters (its last character is not an uppercase letter), yet its
case multiplier is 1.5, not 1.0. -/
theorem caseMod_not_all_upper_letters :
    caseMod "GOOD!" = 1 + 1/2 ∧ (1 + 1/2 : ℚ) ≠ 1 ∧
      ∃ c ∈ "GOOD!".toList, ¬ c.isUpper := by
  have h : pyIsUpper "GOOD!" = true := by decide
  exact ⟨by rw [caseMod, if_pos h], by norm_num, ⟨'!', by decide, by decide⟩⟩

/-- C3 amended: the case multiplier is 1.5 exactly when the raw surface
form contains at least one (ASCII) letter and every letter in it is
uppercase — non-letter characters such as digits or punctuation are
ignored by the test — and 1.0 otherwise. -/
theorem caseMod_iff (w : String) :
    (caseMod w = 1 + 1/2 ↔
      ((∃ c ∈ w.toList, c.isAlpha) ∧ ∀ c ∈ w.toList, c.isAlpha → c.isUpper)) ∧
    (caseMod w = 1 + 1/2 ∨ caseMod w = 1) := by
  unfold caseMod pyIsUpper
  constructor
  · by_cases h : (w.toList.any (fun c => c.isAlpha) &&
      w.toList.all (fun c => !c.isAlpha || c.isUpper)) = true
    · rw [if_pos h]
      simp only [Bool.and_eq_true, List.any_eq_true, List.all_eq_true] at h
      constructor
      · intro _
        refine ⟨h.1, fun c hc hca => ?_⟩
        have := h.2 c hc
        simp [hca] at this
        exact this
      · intro _; rfl
    · rw [if_neg h]
      constructor
      · intro habs; norm_num at habs
      · intro hcl
        simp only [Bool.and_eq_true, List.any_eq_true, List.all_eq_true] at h
        obtain ⟨⟨c, hc, hca⟩, hall⟩ := hcl
        exact absurd ⟨⟨c, hc, hca⟩, fun x hx => by
          by_cases hxa : x.isAlpha
          · simp [hxa, hall x hx hxa]
          · simp [hxa]⟩ h
  · by_cases h : (w.toList.any (fun c => c.isAlpha) &&
      w.toList.all (fun c => !c.isAlpha || c.isUpper)) = true
    · left; rw [if_pos h]
    · right; rw [if_neg h]

end Sentiment
namespace Sentiment

/-- C2: for a token at a non-first position `pos` of the filtered sequence,
the predecessor used by the modifier engine is the normalised previous
surviving token; an intensifier predecessor adds 0.25 to the case
multiplier, otherwise a negator predecessor negates it, and the two checks
are mutually exclusive; at position 0 no predecessor adjustment applies. -/
theorem modifier_prev_surviving (stops : List String) (s : String)
    (pos : Nat) (word : String) (hpos : pos ≠ 0) :
    (normalize ((filteredWords stops s).getD (pos - 1) "") ∈ mods →
      wordMod (filteredWords stops s) pos word = caseMod word + 1/4) ∧
    (normalize ((filteredWords stops s).getD (pos - 1) "") ∉ mods →
      normalize ((filteredWords stops s).getD (pos - 1) "") ∈ inverters →
      wordMod (filteredWords stops s) pos word = caseMod word * (-1)) ∧
    (normalize ((filteredWords stops s).getD (pos - 1) "") ∉ mods →
      normalize ((filteredWords stops s).getD (pos - 1) "") ∉ inverters →
      wordMod (filteredWords stops s) pos word = caseMod word) ∧
    wordMod (filteredWords stops s) 0 word = caseMod word := by
  refine ⟨fun hm => ?_, fun hm hi => ?_, fun hm hi => ?_, ?_⟩
  · simp only [List.getD_eq_getElem?_getD] at hm
    simp [wordMod, hpos, hm]
  · simp only [List.getD_eq_getElem?_getD] at hm hi
    simp [wordMod, hpos, hm, hi]
  · simp only [List.getD_eq_getElem?_getD] at hm hi
    simp [wordMod, hpos, hm, hi]
  · simp [wordMod]

/-- C4: for a non-empty text, `analyse` is the token-loop total with the
two sentence-level multipliers applied once each after the loop, in order:
1.5 when the text's last character is `!`, then 1.25 when the whole text
passes the all-caps test. -/
theorem analyse_sentence_multipliers (stops : List String)
    (lex : String → Option Int) (s : String) (h : s ≠ "") :
    analyse stops lex s =
      some (let t := scoreTokens lex (filteredWords stops s)
            let t1 := if s.toList.getLast? = some '!' then t * (1 + 1/2) else t
            if pyIsUpper s then t1 * (1 + 1/4) else t1) := by
  cases hcl : s.toList.getLast? with
  | none =>
    exfalso
    apply h
    have hl : s.toList = [] := by
      cases hd : s.toList with
      | nil => rfl
      | cons a l => rw [hd] at hcl; simp [List.getLast?] at hcl
    exact String.ext hl
  | some c =>
    simp only [analyse, hcl, Option.some.injEq]

/-- C5: for a record whose subjectivity field is `strongsubj` or `weaksubj`
and whose polarity field is `positive` or `negative`, the stored weight is
`sign(polarity) * (2 if strong else 1)`; hence its sign matches the
polarity and its magnitude is 2 iff the subjectivity is strong. -/
theorem recordWeight_sign_magnitude (subj pol : String)
    (hs : subj = "strongsubj" ∨ subj = "weaksubj")
    (hp : pol = "positive" ∨ pol = "negative") :
    recordWeight subj pol =
      (if pol = "positive" then 1 else -1) *
      (if subj = "strongsubj" then 2 else 1) ∧
    (0 < recordWeight subj pol ↔ pol = "positive") ∧
    ((recordWeight subj pol).natAbs = 2 ↔ subj = "strongsubj") := by
  rcases hs with hs | hs <;> rcases hp with hp | hp <;> subst hs <;> subst hp <;>
    refine ⟨by decide, by decide, by decide⟩

/-- C5 witness: a concrete strong negative record gets weight −2. -/
theorem recordWeight_sign_magnitude_witness :
    recordWeight "strongsubj" "negative" =
      (if ("negative" : String) = "positive" then 1 else -1) *
      (if ("strongsubj" : String) = "strongsubj" then 2 else 1) ∧
    (0 < recordWeight "strongsubj" "negative" ↔ ("negative" : String) = "positive") ∧
    ((recordWeight "strongsubj" "negative").natAbs = 2 ↔
      ("strongsubj" : String) = "strongsubj") :=
  recordWeight_sign_magnitude "strongsubj" "negative" (Or.inl rfl) (Or.inr rfl)

/-- C6 counterexample: `add_word` on a word already present keeps the old
weight: with `buy ↦ 1` in the lexicon, `add_word("buy", 2)` then
`lookup("buy")` returns 1, not 2. -/
theorem add_word_existing_keeps_old :
    lookup (add_word (fun x => if x = "buy" then some 1 else none) "buy" 2) "buy"
      = some 1 ∧
    lookup (add_word (fun x => if x = "buy" then some 1 else none) "buy" 2) "buy"
      ≠ some 2 := by
  constructor
  · rfl
  · intro hc
    simp [lookup, add_word] at hc

/-- C6 amended: `add_word(w, k)` followed by `lookup(w)` returns `k`
provided `w` was absent (otherwise the prior weight is kept with only a
warning); `remove_word(w)` followed by `lookup(w)` returns absent
unconditionally. -/
theorem add_remove_lookup (lex : Lexicon) (w : String) (k : Int) :
    (lookup lex w = none → lookup (add_word lex w k) w = some k) ∧
    lookup (remove_word lex w) w = none := by
  constructor
  · intro h
    unfold lookup at h ⊢
    unfold add_word
    rw [h]
    simp
  · unfold lookup remove_word
    cases h : lex w with
    | some v => simp
    | none => exact h

/-- C6 amended witness: concrete add then lookup, and remove then lookup. -/
theorem add_remove_lookup_witness :
    lookup (add_word (fun _ => none) "buy" 3) "buy" = some 3 ∧
    lookup (remove_word (fun _ => none) "buy") "buy" = none :=
  ⟨(add_remove_lookup (fun _ => none) "buy" 3).1 rfl,
   (add_remove_lookup (fun _ => none) "buy" 3).2⟩

/-- C7: for ratings in [1, 5], a (score, rating) pair matches exactly when
score < 0 and rating < 3, or score > 0 and rating > 3, or score = 0 and
rating = 3. -/
theorem matchesPair_iff (score rating : ℚ) (h1 : 1 ≤ rating)
    (h2 : rating ≤ 5) :
    matchesPair score rating = true ↔
      ((score < 0 ∧ rating < 3) ∨ (score > 0 ∧ rating > 3) ∨
       (score = 0 ∧ rating = 3)) := by
  unfold matchesPair
  split_ifs with ha hb
  · exact iff_of_true rfl (by tauto)
  · exact iff_of_true rfl (Or.inr (Or.inr hb))
  · refine iff_of_false (by simp) ?_
    rintro (h | h | h)
    · exact ha (Or.inl h)
    · exact ha (Or.inr h)
    · exact hb h

/-- C7 witness: score 0 with rating 3 matches, score −1 with rating 2
matches, and score 1 with rating 2 does not. -/
theorem matchesPair_iff_witness :
    matchesPair 0 3 = true ∧ matchesPair (-1) 2 = true ∧
    matchesPair 1 2 = false := by
  refine ⟨(matchesPair_iff 0 3 (by norm_num) (by norm_num)).mpr (by norm_num),
    (matchesPair_iff (-1) 2 (by norm_num) (by norm_num)).mpr (by norm_num), ?_⟩
  cases hb : matchesPair 1 2 with
  | false => rfl
  | true =>
    exfalso
    rcases (matchesPair_iff 1 2 (by norm_num) (by norm_num)).mp hb with
      ⟨ha, _⟩ | ⟨_, ha⟩ | ⟨ha, _⟩ <;> norm_num at ha

end Sentiment
namespace Sentiment

/-- C2 witness: in "not the buy" with "the" a stop word, the surviving
predecessor of "buy" is "not", a negator, so the multiplier is negated. -/
theorem modifier_prev_surviving_witness :
    wordMod (filteredWords ["the"] "not the buy") 1 "buy" =
      caseMod "buy" * (-1) :=
  (modifier_prev_surviving ["the"] "not the buy" 1 "buy" (by decide)).2.1
    (by decide) (by decide)

/-- C4 witness: the sentence-multiplier decomposition at the concrete
non-empty text "HI!". -/
theorem analyse_sentence_multipliers_witness :
    analyse [] (fun _ => none) "HI!" =
      some (let t := scoreTokens (fun _ => none) (filteredWords [] "HI!")
            let t1 := if "HI!".toList.getLast? = some '!' then t * (1 + 1/2)
                      else t
            if pyIsUpper "HI!" then t1 * (1 + 1/4) else t1) :=
  analyse_sentence_multipliers [] (fun _ => none) "HI!" (by decide)

/-- C8: the histogram bucket width is the truncated twentieth of the score
range, and the zero-width case is not guarded: on the score sequence
[1, 1] the width is 0 and the bucket computation divides by zero
(`ZeroDivisionError`, modelled `none`) instead of failing with
`DegenerateRange` or falling back to width 1. -/
theorem bucket_width_zero_unguarded :
    incrementsOf [1, 1] = 0 ∧ bucketIndex (incrementsOf [1, 1]) 1 = none := by
  have h : incrementsOf [1, 1] = 0 := by
    norm_num [incrementsOf, listMax, listMin, pyInt, List.foldl]
  exact ⟨h, by rw [h]; rfl⟩

/-- C9 counterexample: two records with exactly the same fields in a
different order parse to different weights (2 versus 1), so the parse is
not independent of field order. -/
theorem parse_order_dependent :
    ((splitStr (fun c => c = ' ')
        "type=strongsubj len=1 word1=good pos1=adj priorpolarity=positive").Perm
      (splitStr (fun c => c = ' ')
        "priorpolarity=positive len=1 word1=good pos1=adj type=strongsubj")) ∧
    parseRecord "type=strongsubj len=1 word1=good pos1=adj priorpolarity=positive"
      = some ("good", 2) ∧
    parseRecord "priorpolarity=positive len=1 word1=good pos1=adj type=strongsubj"
      = some ("good", 1) := by
  refine ⟨by decide, by decide, by decide⟩

/-- C9 amended: parsing is positional, not keyed: it reads the value of
the record's first field as subjectivity, of its third field as the target
word, and of its last field as polarity, whatever their keys are. -/
theorem parseFields_positional (l : List String) (v0 v2 vl : String)
    (h0 : (l.get? 0).bind fieldValue = some v0)
    (h2 : (l.get? 2).bind fieldValue = some v2)
    (hl : l.getLast?.bind fieldValue = some vl) :
    parseFields l = some (v2, recordWeight v0 vl) := by
  unfold parseFields
  cases e0 : l.get? 0 with
  | none => rw [e0] at h0; simp at h0
  | some f0 =>
    cases e2 : l.get? 2 with
    | none => rw [e2] at h2; simp at h2
    | some f2 =>
      cases el : l.getLast? with
      | none => rw [el] at hl; simp at hl
      | some fl =>
        rw [e0] at h0
        rw [e2] at h2
        rw [el] at hl
        simp only [Option.some_bind] at h0 h2 hl
        simp [h0, h2, hl]

/-- C9 amended witness: the canonical subjclues field layout parsed
positionally. -/
theorem parseFields_positional_witness :
    parseFields ["type=strongsubj", "len=1", "word1=good", "pos1=adj",
      "priorpolarity=positive"] =
      some ("good", recordWeight "strongsubj" "positive") :=
  parseFields_positional _ "strongsubj" "good" "positive"
    (by decide) (by decide) (by decide)

/-- C10: the bucket index is computed from the raw score, not from
(score − min), and is never clamped: on [0, 100, −40] the width is 7 ≥ 1
and the score −40 gets bucket index −6, outside [0, 19]; in general every
negative score gets a negative bucket index whenever the width is
positive. -/
theorem bucket_index_out_of_range :
    (1 ≤ incrementsOf [0, 100, -40] ∧ (-40 : ℚ) ∈ [(0 : ℚ), 100, -40] ∧
      bucketIndex (incrementsOf [0, 100, -40]) (-40) = some (-6) ∧
      ((-6 : Int) < 0 ∨ 19 < (-6 : Int))) ∧
    (∀ (w : Int) (sc : ℚ), 1 ≤ w → sc < 0 →
      ∃ i, bucketIndex w sc = some i ∧ i < 0) := by
  constructor
  · have hw : incrementsOf [0, 100, -40] = 7 := by
      norm_num [incrementsOf, listMax, listMin, pyInt, List.foldl]
    refine ⟨by rw [hw]; norm_num, by norm_num, ?_, by norm_num⟩
    rw [hw]
    unfold bucketIndex
    rw [if_neg (by norm_num)]
    congr 1
    rw [Int.floor_eq_iff]
    constructor <;> norm_num
  · intro w sc hw hsc
    have hw0 : w ≠ 0 := by omega
    refine ⟨⌊sc / (w : ℚ)⌋, by unfold bucketIndex; rw [if_neg hw0], ?_⟩
    have hpos : (0 : ℚ) < (w : ℚ) := by exact_mod_cast Int.lt_of_lt_of_le Int.zero_lt_one hw
    have hneg : sc / (w : ℚ) < 0 := div_neg_of_neg_of_pos hsc hpos
    have hnn : ¬ (0 ≤ ⌊sc / (w : ℚ)⌋) := by
      rw [Int.floor_nonneg]
      exact not_le.mpr hneg
    omega

/-- C10 witness: width 1 and score −1 give a negative bucket index. -/
theorem bucket_index_out_of_range_witness :
    ∃ i, bucketIndex 1 (-1) = some i ∧ i < 0 :=
  bucket_index_out_of_range.2 1 (-1) (by norm_num) (by norm_num)

end Sentiment
